import Mathlib

/-!
# Tile rendering worker (`map/render_queue_routine.cpp`) and feature checker (`generator/check_model.cpp`)

A shallow embedding of `RenderQueueRoutine`: the worker loop `Do` as a
small-step machine with one step per source statement, `Cancel`,
`AddWindowHandle`, `Invalidate`, `HasTile`, `AddTile`, and the render
rectangle computed at the head of `Do`.

Machine integers: `unsigned` is a `Nat` below `2 ^ 32` with wrap-around
subtraction, `int` is an `Int`.  A null `shared_ptr` is `none`; dereferencing
it makes a step (or `Cancel`) return `none`.

The lambda of `check_model::ReadFeatures` is embedded as `visitFeature`, a
failed `CHECK` being an error value.
-/

namespace RenderQueueRoutine

/-! ## Data model -/

/-- Integer rectangle `m2::RectI` (min corner, max corner). -/
structure RectI where
  minX : Int
  minY : Int
  maxX : Int
  maxY : Int
deriving DecidableEq, Repr

/-- Modelled from the spec: `yg::Tiler::RectInfo` (declared in `yg/tiler.hpp`, which is
not among the sources). The spec's TileKey: a geographic rectangle and a draw
scale, two keys being equal iff both match. The rectangle's coordinates are
kept as integers; `Do` only copies them. -/
structure RectInfo where
  m_rect : RectI
  m_drawScale : Int
deriving DecidableEq, Repr

/-- Modelled from the spec: `PaintEvent` (declared in `events.hpp`, which is not among
the sources): the cancel token, a flag that starts cleared and can be set. -/
structure PaintEvent where
  m_isCancelled : Bool
deriving DecidableEq, Repr

/-- The call `PaintEvent::setIsCancelled`. -/
def PaintEvent.setIsCancelled (_e : PaintEvent) (b : Bool) : PaintEvent :=
  { m_isCancelled := b }

/-- The call `PaintEvent::isCancelled`. -/
def PaintEvent.isCancelled (e : PaintEvent) : Bool :=
  e.m_isCancelled

/-- Single tile rendering command (`RenderQueueRoutine::Command`). The drawing
callback `m_renderFn` is external; its invocation is recorded as an event.
`m_paintEvent` is a `shared_ptr` that the constructor leaves null. -/
structure Command where
  m_rectInfo : RectInfo
  m_paintEvent : Option PaintEvent
  m_sequenceID : Nat
deriving DecidableEq, Repr

/-- The constructor `Command::Command(rectInfo, renderFn, sequenceID)`. -/
def Command.mk0 (rectInfo : RectInfo) (sequenceID : Nat) : Command :=
  { m_rectInfo := rectInfo, m_paintEvent := none, m_sequenceID := sequenceID }

/-- A render target (`yg::gl::BaseTexture`), identified by a number. -/
abbrev BaseTexture := Nat

/-- A window handle (`WindowHandle`), identified by a number. -/
abbrev WindowHandle := Nat

/-- The tile built at the commit step, `yg::Tile(tileTarget, tileInfoLayer,
frameScreen, rectInfo, duration)`: the render target (possibly null) and the
key. The info layer, the screen and the duration carry no control flow. -/
structure Tile where
  m_renderTarget : Option BaseTexture
  m_rectInfo : RectInfo
deriving DecidableEq, Repr

/-- Modelled from the spec: `yg::TileCache` (declared in `yg/tile_cache.hpp`, which is
not among the sources): a mapping from tile key to tile with at most one entry
per key, listed from least to most recently committed, and the capacity of the
resource pool. -/
structure TileCache where
  m_entries : List (RectInfo × Tile)
  m_capacity : Nat
deriving DecidableEq, Repr

/-- Modelled from the spec: `TileCache::hasTile` (not among the sources): whether the
cache has an entry for the key. -/
def TileCache.hasTile (c : TileCache) (k : RectInfo) : Bool :=
  c.m_entries.any (fun e => decide (e.1 = k))

/-- Modelled from the spec: `TileCache::addTile` (not among the sources): inserts or
overwrites the entry for the key; when inserting a new key would exceed the
capacity, the least recently committed entry is evicted first. -/
def TileCache.addTile (c : TileCache) (k : RectInfo) (t : Tile) : TileCache :=
  if c.hasTile k then
    { c with m_entries := c.m_entries.filter (fun e => !decide (e.1 = k)) ++ [(k, t)] }
  else if c.m_capacity ≤ c.m_entries.length then
    { c with m_entries := c.m_entries.drop 1 ++ [(k, t)] }
  else
    { c with m_entries := c.m_entries ++ [(k, t)] }

/-- Modelled from the spec: `ThreadedList<T>` (declared in `base/threaded_list.hpp`,
which is not among the sources): a FIFO with a cancelled flag. -/
structure ThreadedList (α : Type) where
  m_list : List α
  m_isCancelled : Bool
deriving DecidableEq, Repr

/-- Result of a blocking pop. -/
inductive Popped (α : Type) where
  | cancelled : Popped α
  | waiting : Popped α
  | item (x : α) (rest : ThreadedList α) : Popped α

/-- Modelled from the spec: `ThreadedList::Front(true)` (not among the sources): once
the list is cancelled the pop returns the cancelled sentinel at once; on an
empty list it blocks; otherwise it removes and returns the head. -/
def ThreadedList.Front {α : Type} (l : ThreadedList α) : Popped α :=
  if l.m_isCancelled then .cancelled
  else
    match l.m_list with
    | [] => .waiting
    | x :: rest => .item x { l with m_list := rest }

/-- What the worker does that is visible outside it. -/
inductive Event where
  | popCommand : Event
  | acquireTarget : Event
  | renderFn (key : RectInfo) : Event
  | addTile (key : RectInfo) : Event
  | invalidate (w : WindowHandle) : Event
  | endThreadDrawing : Event
deriving DecidableEq, Repr

/-- Program points of `RenderQueueRoutine::Do`, one per statement of the loop
(the line of `render_queue_routine.cpp` is given for each). -/
inductive Pc where
  /-- The loop condition `while (!IsCancelled())`, line 112. -/
  | loopCond : Pc
  /-- Taking the mutex, `MutexGuard guard(m_mutex)`, line 115. -/
  | lockFetch : Pc
  /-- The pop `m_currentCommand = RenderCommands().Front(true)`, line 117. -/
  | fetch : Pc
  /-- The test `RenderCommands().IsCancelled()`, line 119. -/
  | queueCancelled : Pc
  /-- The test `m_sequenceID < CurrentSequence()`, line 123. -/
  | staleCheck : Pc
  /-- The test `HasTile(m_rectInfo)`, line 126. -/
  | hasTileCheck : Pc
  /-- Attaching the paint event, line 129, and leaving the guarded block. -/
  | attach : Pc
  /-- The test `IsCancelled()`, line 132. -/
  | cancelCheck : Pc
  /-- The pop `tileTarget = renderTargets().Front(true)`, line 139. -/
  | acquire : Pc
  /-- The test `renderTargets().IsCancelled()`, line 141. -/
  | poolCancelled : Pc
  /-- Preparing the frame and invoking `m_renderFn`, lines 144 to 168. -/
  | invoke : Pc
  /-- The drawing callback is running; next it returns, lines 170 to 173. -/
  | inCallback : Pc
  /-- The test `!IsCancelled()`, line 175. -/
  | commitGate : Pc
  /-- Taking the mutex, line 178. -/
  | lockCommit : Pc
  /-- The token test and `AddTile`, lines 180 and 181. -/
  | commit : Pc
  /-- The call `m_currentCommand.reset()`, line 183, and leaving the guarded block. -/
  | reset : Pc
  /-- The call `Invalidate()`, line 186. -/
  | invalidate : Pc
  /-- After the loop: `m_renderContext->endThreadDrawing()`, line 193. -/
  | endDrawing : Pc
  /-- The procedure `Do` has returned. -/
  | returned : Pc
deriving DecidableEq, Repr

/-- The routine, together with the parts of `RenderQueue` and `ResourceManager`
it reads and writes, the local `tileTarget` of `Do`, the program point, and
the trace of events so far. -/
structure State where
  pc : Pc
  /-- Modelled from the spec: the flag of `threads::IRoutine` (declared in
  `base/thread.hpp`, which is not among the sources), the global cancel flag. -/
  m_isCancelled : Bool
  m_currentCommand : Option Command
  m_windowHandles : List WindowHandle
  tileTarget : Option BaseTexture
  /-- The command queue, `m_renderQueue->RenderCommands()`. -/
  renderCommands : ThreadedList Command
  /-- The sequence counter, `m_renderQueue->CurrentSequence()`. -/
  currentSequence : Nat
  /-- The tile cache, `m_renderQueue->TileCache()`. -/
  tileCache : TileCache
  /-- The pool of render targets, `m_resourceManager->renderTargets()`. -/
  renderTargets : ThreadedList BaseTexture
  events : List Event
deriving DecidableEq, Repr

/-! ## Operations -/

/-- Modelled from the spec: `IRoutine::Cancel` (not among the sources): sets the
routine's cancelled flag. -/
def IRoutine.Cancel (s : State) : State :=
  { s with m_isCancelled := true }

/-- Modelled from the spec: `IRoutine::IsCancelled` (not among the sources): reads the
routine's cancelled flag. -/
def IsCancelled (s : State) : Bool :=
  s.m_isCancelled

/-- The method `RenderQueueRoutine::HasTile`: `hasTile` between `lock` and `unlock`. -/
def HasTile (s : State) (rectInfo : RectInfo) : Bool :=
  s.tileCache.hasTile rectInfo

/-- The method `RenderQueueRoutine::AddTile`: `addTile` between `lock` and `unlock`. -/
def AddTile (s : State) (rectInfo : RectInfo) (tile : Tile) : State :=
  { s with tileCache := s.tileCache.addTile rectInfo tile,
           events := s.events ++ [Event.addTile rectInfo] }

/-- The method `RenderQueueRoutine::AddWindowHandle`: `push_back` on the list. -/
def AddWindowHandle (s : State) (window : WindowHandle) : State :=
  { s with m_windowHandles := s.m_windowHandles ++ [window] }

/-- The method `RenderQueueRoutine::Invalidate`: `for_each` over the list of handles,
calling `WindowHandle::invalidate` on each. -/
def Invalidate (s : State) : State :=
  { s with events := s.events ++ s.m_windowHandles.map Event.invalidate }

/-- Whether the worker holds `m_mutex` at its program point: inside the two
guarded blocks, lines 115 to 130 and 178 to 184. -/
def holdsMutex (s : State) : Bool :=
  match s.pc with
  | .fetch | .queueCancelled | .staleCheck | .hasTileCheck | .attach => true
  | .commit | .reset => true
  | _ => false

/-- The method `RenderQueueRoutine::Cancel`, run while the worker does not hold
`m_mutex`: sets the routine's flag, then, when there is a current command,
sets its paint event cancelled. `none` when the paint event pointer is null. -/
def Cancel (s : State) : Option State :=
  let s1 := IRoutine.Cancel s
  match s1.m_currentCommand with
  | none => some s1
  | some cmd =>
    match cmd.m_paintEvent with
    | none => none
    | some e =>
      some { s1 with
        m_currentCommand := some { cmd with m_paintEvent := some (e.setIsCancelled true) } }

/-- The coordinator's `bumpSequence`: increments the counter. -/
def bumpSequence (s : State) : State :=
  { s with currentSequence := s.currentSequence + 1 }

/-- The coordinator's `submit`: pushes a fresh command on the queue. -/
def AddCommand (s : State) (rectInfo : RectInfo) (seqNumber : Nat) : State :=
  { s with renderCommands :=
      { s.renderCommands with
        m_list := s.renderCommands.m_list ++ [Command.mk0 rectInfo seqNumber] } }

/-- One statement of the loop of `RenderQueueRoutine::Do`. A blocked pop and
the returned procedure leave the state as it is; `none` is the dereference of
a null `shared_ptr`. -/
def step (s : State) : Option State :=
  match s.pc with
  | .loopCond =>
    if IsCancelled s then some { s with pc := .endDrawing }
    else some { s with pc := .lockFetch }
  | .lockFetch => some { s with pc := .fetch }
  | .fetch =>
    match s.renderCommands.Front with
    | .waiting => some s
    | .cancelled =>
      some { s with pc := .queueCancelled, m_currentCommand := none,
                    events := s.events ++ [Event.popCommand] }
    | .item c rest =>
      some { s with pc := .queueCancelled, m_currentCommand := some c,
                    renderCommands := rest,
                    events := s.events ++ [Event.popCommand] }
  | .queueCancelled =>
    if s.renderCommands.m_isCancelled then some { s with pc := .endDrawing }
    else some { s with pc := .staleCheck }
  | .staleCheck =>
    match s.m_currentCommand with
    | none => none
    | some c =>
      if c.m_sequenceID < s.currentSequence then some { s with pc := .loopCond }
      else some { s with pc := .hasTileCheck }
  | .hasTileCheck =>
    match s.m_currentCommand with
    | none => none
    | some c =>
      if HasTile s c.m_rectInfo then some { s with pc := .loopCond }
      else some { s with pc := .attach }
  | .attach =>
    match s.m_currentCommand with
    | none => none
    | some c =>
      some { s with pc := .cancelCheck,
                    m_currentCommand :=
                      some { c with m_paintEvent := some { m_isCancelled := false } } }
  | .cancelCheck =>
    if IsCancelled s then some { s with pc := .endDrawing }
    else some { s with pc := .acquire, tileTarget := none }
  | .acquire =>
    match s.renderTargets.Front with
    | .waiting => some s
    | .cancelled =>
      some { s with pc := .poolCancelled, tileTarget := none,
                    events := s.events ++ [Event.acquireTarget] }
    | .item t rest =>
      some { s with pc := .poolCancelled, tileTarget := some t,
                    renderTargets := rest,
                    events := s.events ++ [Event.acquireTarget] }
  | .poolCancelled =>
    if s.renderTargets.m_isCancelled then some { s with pc := .endDrawing }
    else some { s with pc := .invoke }
  | .invoke =>
    match s.m_currentCommand with
    | none => none
    | some c =>
      some { s with pc := .inCallback,
                    events := s.events ++ [Event.renderFn c.m_rectInfo] }
  | .inCallback => some { s with pc := .commitGate }
  | .commitGate =>
    if !IsCancelled s then some { s with pc := .lockCommit }
    else some { s with pc := .loopCond }
  | .lockCommit => some { s with pc := .commit }
  | .commit =>
    match s.m_currentCommand with
    | none => none
    | some c =>
      match c.m_paintEvent with
      | none => none
      | some e =>
        if !e.isCancelled then
          some { AddTile s c.m_rectInfo
                   { m_renderTarget := s.tileTarget, m_rectInfo := c.m_rectInfo }
                 with pc := .reset }
        else some { s with pc := .reset }
  | .reset => some { s with pc := .invalidate, m_currentCommand := none }
  | .invalidate => some { Invalidate s with pc := .loopCond }
  | .endDrawing =>
    some { s with pc := .returned, events := s.events ++ [Event.endThreadDrawing] }
  | .returned => some s

/-- The worker running `n` statements without interference. -/
def runWorker : Nat → State → Option State
  | 0, s => some s
  | n + 1, s => (step s).bind (runWorker n)

/-! ## The render rectangle -/

/-- Modulus of `unsigned`. -/
def UINT_MOD : Nat := 2 ^ 32

/-- Subtraction of `unsigned` values, wrapping around. -/
def usub (a b : Nat) : Nat :=
  (a % UINT_MOD + UINT_MOD - b % UINT_MOD) % UINT_MOD

/-- Conversion of an `unsigned` value to `int` (two's complement). -/
def toInt (u : Nat) : Int :=
  if u % UINT_MOD < 2 ^ 31 then ((u % UINT_MOD : Nat) : Int)
  else ((u % UINT_MOD : Nat) : Int) - (UINT_MOD : Int)

/-- The rectangle `m2::RectI renderRect(1, 1, tileWidth - 1, tileWidth - 1)`
of line 108, for the sizes read at lines 84 and 85. -/
def renderRect (tileWidth _tileHeight : Nat) : RectI :=
  { minX := 1, minY := 1,
    maxX := toInt (usub tileWidth 1), maxY := toInt (usub tileWidth 1) }

/-- The rectangle the comment of line 107 asks for, a border of one pixel on
each side of a tile of the given size: corners `(1, 1)` and
`(tileWidth - 1, tileHeight - 1)` in `unsigned` arithmetic. -/
def renderRectSpec (tileWidth tileHeight : Nat) : RectI :=
  { minX := 1, minY := 1,
    maxX := toInt (usub tileWidth 1), maxY := toInt (usub tileHeight 1) }

/-! ## Concrete states -/

/-- A tile key. -/
def keyA : RectInfo := { m_rect := ⟨0, 0, 256, 256⟩, m_drawScale := 10 }

/-- Another tile key. -/
def keyB : RectInfo := { m_rect := ⟨256, 0, 512, 256⟩, m_drawScale := 10 }

/-- A worker at the loop condition: nothing queued, sequence `1`, an empty
cache, two render targets in the pool, one window handle. -/
def idle : State :=
  { pc := .loopCond, m_isCancelled := false, m_currentCommand := none,
    m_windowHandles := [7], tileTarget := none,
    renderCommands := { m_list := [], m_isCancelled := false },
    currentSequence := 1,
    tileCache := { m_entries := [], m_capacity := 4 },
    renderTargets := { m_list := [100, 101], m_isCancelled := false },
    events := [] }

/-- Key A submitted with sequence-id `1`. -/
def submittedA : State := AddCommand idle keyA 1

/-- Key A was dequeued with a current sequence-id and the worker is at the
staleness test of line 123, holding the mutex. -/
def dequeuedA : State :=
  { idle with pc := .staleCheck, m_currentCommand := some (Command.mk0 keyA 1),
              events := [Event.popCommand] }

/-- A cache in which another worker has stored a tile for key A. -/
def cacheWithA : TileCache :=
  { m_entries := [(keyA, { m_renderTarget := some 100, m_rectInfo := keyA })],
    m_capacity := 4 }

/-- The drawing callback for key A has returned and the worker is at the test
of line 175; the token and the routine flag are as given. -/
def renderedA (token routine : Bool) : State :=
  { idle with pc := .commitGate, m_isCancelled := routine,
              m_currentCommand :=
                some { m_rectInfo := keyA, m_paintEvent := some { m_isCancelled := token },
                       m_sequenceID := 1 },
              tileTarget := some 100,
              renderTargets := { m_list := [101], m_isCancelled := false },
              events := [Event.popCommand, Event.acquireTarget, Event.renderFn keyA] }

/-- The drawing callback for key A is running (the worker is mid-render, not
holding the mutex) and key B waits in the queue. -/
def midRenderA : State :=
  { idle with pc := .inCallback,
              m_currentCommand :=
                some { m_rectInfo := keyA, m_paintEvent := some { m_isCancelled := false },
                       m_sequenceID := 1 },
              tileTarget := some 100,
              renderCommands := { m_list := [Command.mk0 keyB 1], m_isCancelled := false },
              renderTargets := { m_list := [101], m_isCancelled := false },
              events := [Event.popCommand, Event.acquireTarget, Event.renderFn keyA] }

/-- The state `midRenderA` after `Cancel`: routine flag and token both set. -/
def midRenderACancelled : State :=
  { midRenderA with
      m_isCancelled := true,
      m_currentCommand :=
        some { m_rectInfo := keyA, m_paintEvent := some { m_isCancelled := true },
               m_sequenceID := 1 } }

/-- The pop of line 117 has just returned the cancelled sentinel: the worker
is at the test of line 119 and the command queue is cancelled. -/
def queueCancelledA : State :=
  { idle with pc := .queueCancelled,
              renderCommands := { m_list := [Command.mk0 keyA 1], m_isCancelled := true },
              events := [Event.popCommand] }

/-- The worker back at the loop condition after discarding key A, with the
given sequence counter and tile cache: the slot holds the command as popped. -/
def discardedA (S : Nat) (T : TileCache) : State :=
  { idle with pc := .loopCond, m_currentCommand := some (Command.mk0 keyA 1),
              currentSequence := S, tileCache := T,
              events := [Event.popCommand] }

end RenderQueueRoutine

/-! # Feature checker (`generator/check_model.cpp`) -/

namespace check_model

/-- Geometry kind of a feature, `feature::EGeomType` (declared in
`indexer/feature_data.hpp`, which is not among the sources). -/
inductive EGeomType where
  | GEOM_POINT : EGeomType
  | GEOM_LINE : EGeomType
  | GEOM_AREA : EGeomType
deriving DecidableEq, Repr

/-- The two maps of `Classificator` that `ReadFeatures` calls; the class is
declared in `indexer/classificator.hpp`, which is not among the sources, so
both are taken as given. Types and indices are `uint32_t` values. -/
structure Classificator where
  GetIndexForType : Nat → Nat
  GetTypeForIndex : Nat → Nat

/-- What `ReadFeatures` reads from a `FeatureType`: the types that
`TypesHolder types(ft)` iterates over, the value of
`ft.GetLimitRect(BEST_GEOMETRY).IsValid()` (the rectangle has floating-point
coordinates and `IsValid` is not among the sources), `ft.GetFeatureType()` and
`ft.GetPointsCount()`. -/
structure FeatureType where
  types : List Nat
  limitRectIsValid : Bool
  geomType : EGeomType
  pointsCount : Nat
deriving DecidableEq, Repr

/-- The `CHECK` that stopped the program, by source line. -/
inductive CheckFailure where
  /-- The check `CHECK_EQUAL(c.GetTypeForIndex(c.GetIndexForType(t)), t, ())`, line 33. -/
  | typeRoundTrip (t : Nat) : CheckFailure
  /-- The check `CHECK(unique(...) == vTypes.end(), ())`, line 38. -/
  | duplicateType : CheckFailure
  /-- The check `CHECK(r.IsValid(), ())`, line 41. -/
  | invalidLimitRect : CheckFailure
  /-- The check `CHECK_GREATER(ft.GetPointsCount(), 1, ())`, line 45. -/
  | linePointsCount : CheckFailure
deriving DecidableEq, Repr

/-- The loop of lines 31 to 35: each type is checked against the classificator
and pushed onto `vTypes`. -/
def collectTypes (c : Classificator) : List Nat → List Nat → Except CheckFailure (List Nat)
  | [], vTypes => .ok vTypes
  | t :: ts, vTypes =>
    if c.GetTypeForIndex (c.GetIndexForType t) = t then collectTypes c ts (vTypes ++ [t])
    else .error (.typeRoundTrip t)

/-- The call `std::sort(vTypes.begin(), vTypes.end())`: the values in ascending order. -/
def sort (vTypes : List Nat) : List Nat :=
  vTypes.insertionSort (fun a b => a ≤ b)

/-- Tail of `std::unique`: `prev` is the last element kept; an element equal
to it is dropped. -/
def uniqueAux (prev : Nat) : List Nat → List Nat
  | [] => []
  | y :: rest => if prev = y then uniqueAux prev rest else y :: uniqueAux y rest

/-- The range `std::unique` keeps: the first element of every run of equal
consecutive elements. -/
def unique : List Nat → List Nat
  | [] => []
  | x :: rest => x :: uniqueAux x rest

/-- The condition of line 38, after the sort of line 37:
`unique(vTypes.begin(), vTypes.end()) == vTypes.end()`, the kept range being
the whole vector. -/
def duplicateCheck (vTypes : List Nat) : Bool :=
  (unique (sort vTypes)).length == (sort vTypes).length

/-- The body of the lambda passed to `ForEachOffset`, lines 27 to 48. The
value of `IsDrawableLike` at line 47 is discarded. -/
def visitFeature (c : Classificator) (ft : FeatureType) : Except CheckFailure Unit :=
  match collectTypes c ft.types [] with
  | .error e => .error e
  | .ok vTypes =>
    if !duplicateCheck vTypes then .error .duplicateType
    else if !ft.limitRectIsValid then .error .invalidLimitRect
    else if ft.geomType = .GEOM_LINE then
      if ft.pointsCount > 1 then .ok () else .error .linePointsCount
    else .ok ()

/-- The procedure `ReadFeatures`: the features of the file are visited in
order and the first failing `CHECK` stops the program. -/
def ReadFeatures (c : Classificator) : List FeatureType → Except CheckFailure Unit
  | [] => .ok ()
  | ft :: fts =>
    match visitFeature c ft with
    | .error e => .error e
    | .ok _ => ReadFeatures c fts

/-- A classificator whose maps are inverse to each other on every type but `5`. -/
def sampleClassif : Classificator :=
  { GetIndexForType := fun t => t / 2, GetTypeForIndex := fun i => if i = 2 then 4 else 2 * i }

end check_model

namespace RenderQueueRoutine

/-! ## Theorems -/

theorem runWorker_add (m n : Nat) (s : State) :
    runWorker (m + n) s = (runWorker m s).bind (runWorker n) := by
  induction m generalizing s with
  | zero => simp [runWorker]
  | succ k ih =>
    rw [Nat.succ_add]
    simp only [runWorker]
    cases h : step s with
    | none => simp
    | some s1 => simpa using ih s1

theorem runWorker_returned (n : Nat) (s : State) (h : s.pc = .returned) :
    runWorker n s = some s := by
  induction n with
  | zero => rfl
  | succ k ih => simp [runWorker, step, h, ih]

/-- C1: a command whose sequence-id is less than the sequence value `S` the
worker reads at line 123 is discarded. From the loop condition, with the
command at the head of the queue, the worker pops it, and whatever value `S`
above the sequence-id the counter has been bumped to by the time of the test,
the iteration ends back at the loop condition: the only event is the pop (no
drawing callback, no `AddTile`) and the tile cache is the one before. -/
theorem stale_command_not_committed (s : State) (c : Command) (rest : List Command)
    (S : Nat) (hpc : s.pc = .loopCond) (hrun : IsCancelled s = false)
    (hq : s.renderCommands = { m_list := c :: rest, m_isCancelled := false })
    (hstale : c.m_sequenceID < S) :
    (runWorker 4 s).bind (fun s4 => step { s4 with currentSequence := S })
      = some { s with pc := .loopCond, m_currentCommand := some c,
                      renderCommands := { m_list := rest, m_isCancelled := false },
                      currentSequence := S,
                      events := s.events ++ [Event.popCommand] }
    ∧ ∀ s1, (runWorker 4 s).bind (fun s4 => step { s4 with currentSequence := S }) = some s1 →
        s1.tileCache = s.tileCache ∧ HasTile s1 c.m_rectInfo = HasTile s c.m_rectInfo := by
  have h : (runWorker 4 s).bind (fun s4 => step { s4 with currentSequence := S })
      = some { s with pc := .loopCond, m_currentCommand := some c,
                      renderCommands := { m_list := rest, m_isCancelled := false },
                      currentSequence := S,
                      events := s.events ++ [Event.popCommand] } := by
    simp only [IsCancelled] at hrun
    simp [runWorker, step, hpc, IsCancelled, hrun, hq, ThreadedList.Front, hstale]
  refine ⟨h, ?_⟩
  intro s1 h1
  rw [h] at h1
  cases h1
  simp [HasTile]

/-- Scenario of C1: key A is submitted with sequence-id `1`, the sequence is
bumped to `2` before the worker dequeues it, and no tile for key A is in the
cache after the iteration. -/
theorem stale_command_not_committed_witness :
    (bumpSequence submittedA).currentSequence = 2 ∧
    ((runWorker 4 submittedA).bind (fun s4 => step { s4 with currentSequence := 2 })
      = some { submittedA with
                      pc := .loopCond, m_currentCommand := some (Command.mk0 keyA 1),
                      renderCommands := { m_list := [], m_isCancelled := false },
                      currentSequence := 2,
                      events := submittedA.events ++ [Event.popCommand] }
    ∧ ∀ s1, (runWorker 4 submittedA).bind (fun s4 => step { s4 with currentSequence := 2 })
        = some s1 →
        s1.tileCache = submittedA.tileCache ∧
        HasTile s1 (Command.mk0 keyA 1).m_rectInfo
          = HasTile submittedA (Command.mk0 keyA 1).m_rectInfo) :=
  ⟨by decide,
   stale_command_not_committed submittedA (Command.mk0 keyA 1) [] 2
     (by decide) (by decide) (by decide) (by decide)⟩

/-- C2: a dequeued command that is not stale and whose key the cache already
holds when `HasTile` is called (whatever the cache `T` has become by then,
other workers writing to it) is discarded: from the test of line 123 the
worker is back at the loop condition after the test of line 126, with the pool
of render targets, the events (no acquire, no drawing callback) and the cache
`T` as they were; when the routine is not cancelled the next two statements
take the mutex and reach the pop of line 117. -/
theorem cached_command_discarded (s : State) (c : Command) (T : TileCache)
    (hpc : s.pc = .staleCheck) (hcur : s.m_currentCommand = some c)
    (hfresh : ¬ c.m_sequenceID < s.currentSequence)
    (hhas : T.hasTile c.m_rectInfo = true) :
    (step s).bind (fun s1 => step { s1 with tileCache := T })
      = some { s with pc := .loopCond, tileCache := T }
    ∧ (IsCancelled s = false →
        runWorker 2 { s with pc := .loopCond, tileCache := T }
          = some { s with pc := .fetch, tileCache := T }) := by
  constructor
  · simp [step, hpc, hcur, hfresh, HasTile, hhas]
  · intro hrun
    simp only [IsCancelled] at hrun
    simp [runWorker, step, IsCancelled, hrun]

/-- Instance of C2: key A is dequeued with a current sequence-id while the
cache already holds a tile for key A. -/
theorem cached_command_discarded_witness :
    dequeuedA.pc = .staleCheck ∧ dequeuedA.m_currentCommand = some (Command.mk0 keyA 1) ∧
    ¬ (Command.mk0 keyA 1).m_sequenceID < dequeuedA.currentSequence ∧
    cacheWithA.hasTile (Command.mk0 keyA 1).m_rectInfo = true ∧
    ((step dequeuedA).bind (fun s1 => step { s1 with tileCache := cacheWithA })
      = some { dequeuedA with pc := .loopCond, tileCache := cacheWithA }
    ∧ (IsCancelled dequeuedA = false →
        runWorker 2 { dequeuedA with pc := .loopCond, tileCache := cacheWithA }
          = some { dequeuedA with pc := .fetch, tileCache := cacheWithA })) :=
  ⟨by decide, by decide, by decide, by decide,
   cached_command_discarded dequeuedA (Command.mk0 keyA 1) cacheWithA
     (by decide) (by decide) (by decide) (by decide)⟩

/-- C3: when the cancel token of the command is set once the drawing callback
has returned (the worker is at the test of line 175), `AddTile` is not called:
either the routine is cancelled and the commit block is skipped, or the block
runs, finds the token set, and only resets the slot and notifies. In both
cases the iteration ends at the loop condition with the tile cache it started
with and without an `addTile` event. -/
theorem cancelled_token_not_committed (s : State) (c : Command) (e : PaintEvent)
    (hpc : s.pc = .commitGate) (hcur : s.m_currentCommand = some c)
    (htok : c.m_paintEvent = some e) (hset : e.isCancelled = true) :
    ∃ s1, runWorker (if IsCancelled s then 1 else 5) s = some s1 ∧
      s1.pc = .loopCond ∧ s1.tileCache = s.tileCache ∧
      s1.events
        = s.events ++ (if IsCancelled s then [] else s.m_windowHandles.map Event.invalidate) ∧
      ∀ k, Event.addTile k ∉ s1.events.drop s.events.length := by
  cases hc : s.m_isCancelled with
  | true =>
    refine ⟨{ s with pc := .loopCond }, ?_, rfl, rfl, ?_, ?_⟩
    · simp [runWorker, step, hpc, IsCancelled, hc]
    · simp [IsCancelled, hc]
    · simp
  | false =>
    refine ⟨{ s with pc := .loopCond, m_currentCommand := none,
                     events := s.events ++ s.m_windowHandles.map Event.invalidate },
            ?_, rfl, rfl, ?_, ?_⟩
    · simp [runWorker, step, hpc, IsCancelled, hc, hcur, htok, hset, Invalidate]
    · simp [IsCancelled, hc]
    · simp

/-- Instance of C3: the token of key A was set during the render while the
routine itself is not cancelled. -/
theorem cancelled_token_not_committed_witness :
    (renderedA true false).pc = .commitGate ∧
    ∃ s1, runWorker (if IsCancelled (renderedA true false) then 1 else 5) (renderedA true false)
        = some s1 ∧
      s1.pc = .loopCond ∧ s1.tileCache = (renderedA true false).tileCache ∧
      s1.events
        = (renderedA true false).events ++
          (if IsCancelled (renderedA true false) then []
           else (renderedA true false).m_windowHandles.map Event.invalidate) ∧
      ∀ k, Event.addTile k ∉ s1.events.drop (renderedA true false).events.length :=
  ⟨by decide,
   cancelled_token_not_committed (renderedA true false)
     { m_rectInfo := keyA, m_paintEvent := some { m_isCancelled := true }, m_sequenceID := 1 }
     { m_isCancelled := true } (by decide) (by decide) (by decide) (by decide)⟩

/-- Once the routine flag is set, a worker whose callback is running goes
through the test of line 175 and the loop condition to the end of `Do`, and
stays there. -/
theorem runWorker_cancelled_inCallback (s : State) (hpc : s.pc = .inCallback)
    (hc : s.m_isCancelled = true) (n : Nat) :
    ∃ s1, runWorker n s = some s1 ∧
      (s1.pc = .inCallback ∨ s1.pc = .commitGate ∨ s1.pc = .loopCond ∨
        s1.pc = .endDrawing ∨ s1.pc = .returned) ∧
      s1.tileCache = s.tileCache ∧ s1.renderCommands = s.renderCommands ∧
      s1.m_currentCommand = s.m_currentCommand ∧
      (s1.events = s.events ∨ s1.events = s.events ++ [Event.endThreadDrawing]) := by
  have h4 : runWorker 4 s
      = some { s with pc := .returned, events := s.events ++ [Event.endThreadDrawing] } := by
    simp [runWorker, step, hpc, IsCancelled, hc]
  rcases Nat.lt_or_ge n 4 with hlt | hge
  · interval_cases n
    · exact ⟨s, rfl, Or.inl hpc, rfl, rfl, rfl, Or.inl rfl⟩
    · exact ⟨{ s with pc := .commitGate }, by simp [runWorker, step, hpc],
        by simp, rfl, rfl, rfl, Or.inl rfl⟩
    · exact ⟨{ s with pc := .loopCond }, by simp [runWorker, step, hpc, IsCancelled, hc],
        by simp, rfl, rfl, rfl, Or.inl rfl⟩
    · exact ⟨{ s with pc := .endDrawing }, by simp [runWorker, step, hpc, IsCancelled, hc],
        by simp, rfl, rfl, rfl, Or.inl rfl⟩
  · obtain ⟨k, rfl⟩ := Nat.exists_eq_add_of_le hge
    refine ⟨{ s with pc := .returned, events := s.events ++ [Event.endThreadDrawing] },
      ?_, by simp, rfl, rfl, rfl, Or.inr rfl⟩
    rw [runWorker_add, h4]
    simpa using runWorker_returned k _ rfl

/-- Counterexample to C4 as stated: key A is mid-render with key B waiting in
the queue and `Cancel` is issued. After the callback returns the worker finds
the routine cancelled at line 175 and again at the loop condition, and leaves
the loop: four statements later `Do` has returned, key B is still queued, and
at no later time is the worker at the pop of line 117. -/
theorem cancel_mid_render_stops_worker_example :
    holdsMutex midRenderA = false ∧
    Cancel midRenderA = some midRenderACancelled ∧
    runWorker 4 midRenderACancelled
      = some { midRenderACancelled with
                 pc := .returned,
                 events := midRenderACancelled.events ++ [Event.endThreadDrawing] } ∧
    ¬ ∃ n s1, runWorker n midRenderACancelled = some s1 ∧ s1.pc = .fetch := by
  refine ⟨by decide, by decide, by decide, ?_⟩
  rintro ⟨n, s1, hrun, hpc⟩
  obtain ⟨s2, h2, hpcs, -⟩ := runWorker_cancelled_inCallback midRenderACancelled rfl rfl n
  rw [hrun] at h2
  cases h2
  rw [hpc] at hpcs
  simp at hpcs

/-- C4, amended: when `Cancel` is issued while the worker is mid-render of a
command (the callback is running and the token is attached), `Cancel` sets
the routine flag and the token of that command (the slot then holds the same
command with its token reporting cancelled), and after the callback returns
the worker skips the commit block, finds the routine cancelled at the loop
condition and leaves the loop: four statements later `Do` has returned after
`endThreadDrawing`, and at every later time the command queue and the tile
cache are untouched, the token is still set, and the worker is never again at
the pop of line 117. -/
theorem cancel_mid_render_stops_worker (s : State) (c : Command) (e : PaintEvent)
    (hpc : s.pc = .inCallback) (hcur : s.m_currentCommand = some c)
    (htok : c.m_paintEvent = some e) :
    ∃ sc, Cancel s = some sc ∧ sc.m_isCancelled = true ∧
      sc.m_currentCommand = some { c with m_paintEvent := some { m_isCancelled := true } } ∧
      (∀ c1 e1, sc.m_currentCommand = some c1 → c1.m_paintEvent = some e1 →
        e1.isCancelled = true) ∧
      runWorker 4 sc
        = some { sc with pc := .returned, events := s.events ++ [Event.endThreadDrawing] } ∧
      ∀ n, ∃ s1, runWorker n sc = some s1 ∧ s1.pc ≠ .fetch ∧
        s1.renderCommands = s.renderCommands ∧ s1.tileCache = s.tileCache ∧
        s1.m_currentCommand
          = some { c with m_paintEvent := some { m_isCancelled := true } } ∧
        ∀ k, Event.addTile k ∉ s1.events.drop s.events.length := by
  refine ⟨{ s with m_isCancelled := true,
                   m_currentCommand := some { c with m_paintEvent := some (e.setIsCancelled true) } },
    ?_, rfl, rfl, ?_, ?_, ?_⟩
  · simp [Cancel, IRoutine.Cancel, hcur, htok]
  · intro c1 e1 hc1 he1
    simp only [Option.some.injEq] at hc1
    subst hc1
    simp only [Option.some.injEq] at he1
    subst he1
    rfl
  · simp [runWorker, step, hpc, IsCancelled]
  · intro n
    obtain ⟨s1, h1, hpcs, hcache, hq, hcmd, hev⟩ :=
      runWorker_cancelled_inCallback
        { s with m_isCancelled := true,
                 m_currentCommand :=
                   some { c with m_paintEvent := some (e.setIsCancelled true) } }
        hpc rfl n
    refine ⟨s1, h1, ?_, hq, hcache, hcmd, ?_⟩
    · rcases hpcs with h | h | h | h | h <;> simp [h]
    · intro k
      rcases hev with h | h <;> simp [h]

/-- Instance of C4, amended: `Cancel` issued while key A is mid-render. -/
theorem cancel_mid_render_stops_worker_witness :
    midRenderA.pc = .inCallback ∧
    ∃ sc, Cancel midRenderA = some sc ∧ sc.m_isCancelled = true ∧
      sc.m_currentCommand
        = some { m_rectInfo := keyA, m_paintEvent := some { m_isCancelled := true },
                 m_sequenceID := 1 } ∧
      (∀ c1 e1, sc.m_currentCommand = some c1 → c1.m_paintEvent = some e1 →
        e1.isCancelled = true) ∧
      runWorker 4 sc
        = some { sc with pc := .returned,
                         events := midRenderA.events ++ [Event.endThreadDrawing] } ∧
      ∀ n, ∃ s1, runWorker n sc = some s1 ∧ s1.pc ≠ .fetch ∧
        s1.renderCommands = midRenderA.renderCommands ∧ s1.tileCache = midRenderA.tileCache ∧
        s1.m_currentCommand
          = some { m_rectInfo := keyA, m_paintEvent := some { m_isCancelled := true },
                   m_sequenceID := 1 } ∧
        ∀ k, Event.addTile k ∉ s1.events.drop midRenderA.events.length :=
  ⟨by decide,
   cancel_mid_render_stops_worker midRenderA
     { m_rectInfo := keyA, m_paintEvent := some { m_isCancelled := false }, m_sequenceID := 1 }
     { m_isCancelled := false } (by decide) (by decide) (by decide)⟩

/-- Counterexample to C5 as stated: key A is mid-render and `Cancel` is
issued. The worker finds the routine cancelled at line 175, skips the block
holding `m_currentCommand.reset()`, and is back at the loop condition with
the slot still holding the command for key A; the slot is never emptied
afterwards. -/
theorem slot_kept_when_routine_cancelled_example :
    Cancel midRenderA = some midRenderACancelled ∧
    runWorker 2 midRenderACancelled = some { midRenderACancelled with pc := .loopCond } ∧
    midRenderACancelled.m_currentCommand ≠ none ∧
    ¬ ∃ n s1, runWorker n midRenderACancelled = some s1 ∧ s1.m_currentCommand = none := by
  refine ⟨by decide, by decide, by decide, ?_⟩
  rintro ⟨n, s1, hrun, hslot⟩
  obtain ⟨s2, h2, -, -, -, hcmd, -⟩ :=
    runWorker_cancelled_inCallback midRenderACancelled rfl rfl n
  rw [hrun] at h2
  cases h2
  rw [hslot] at hcmd
  exact absurd hcmd (by decide)

/-- C5, amended: for a command whose drawing callback has returned (the
worker is at the test of line 175 with the token attached): when the routine
is not cancelled at that test, the commit block runs and at its end the slot
`m_currentCommand` is empty, whether the token was set (no tile added) or not
(tile added); when the routine is cancelled at that test, the commit block is
skipped and the slot still holds the command at the loop condition. -/
theorem slot_after_commit_step (s : State) (c : Command) (e : PaintEvent)
    (hpc : s.pc = .commitGate) (hcur : s.m_currentCommand = some c)
    (htok : c.m_paintEvent = some e) :
    ∃ s1, runWorker (if IsCancelled s then 1 else 4) s = some s1 ∧
      s1.pc = (if IsCancelled s then Pc.loopCond else Pc.invalidate) ∧
      s1.m_currentCommand = (if IsCancelled s then some c else none) ∧
      s1.events
        = s.events ++
          (if IsCancelled s || e.isCancelled then [] else [Event.addTile c.m_rectInfo]) := by
  cases hc : s.m_isCancelled with
  | true =>
    exact ⟨{ s with pc := .loopCond }, by simp [runWorker, step, hpc, IsCancelled, hc],
      by simp [IsCancelled, hc], by simp [IsCancelled, hc, hcur], by simp [IsCancelled, hc]⟩
  | false =>
    cases he : e.isCancelled with
    | true =>
      exact ⟨{ s with pc := .invalidate, m_currentCommand := none },
        by simp [runWorker, step, hpc, IsCancelled, hc, hcur, htok, he],
        by simp [IsCancelled, hc], by simp [IsCancelled, hc], by simp [IsCancelled, hc]⟩
    | false =>
      exact ⟨{ AddTile s c.m_rectInfo { m_renderTarget := s.tileTarget, m_rectInfo := c.m_rectInfo }
               with pc := .invalidate, m_currentCommand := none },
        by simp [runWorker, step, hpc, IsCancelled, hc, hcur, htok, he, AddTile],
        by simp [IsCancelled, hc], by simp [IsCancelled, hc],
        by simp [IsCancelled, hc, AddTile]⟩

/-- Instance of C5, amended: key A rendered with the token clear and the
routine not cancelled. -/
theorem slot_after_commit_step_witness :
    (renderedA false false).pc = .commitGate ∧
    ∃ s1, runWorker (if IsCancelled (renderedA false false) then 1 else 4)
        (renderedA false false) = some s1 ∧
      s1.pc = (if IsCancelled (renderedA false false) then Pc.loopCond else Pc.invalidate) ∧
      s1.m_currentCommand
        = (if IsCancelled (renderedA false false) then
             some { m_rectInfo := keyA, m_paintEvent := some { m_isCancelled := false },
                    m_sequenceID := 1 }
           else none) ∧
      s1.events
        = (renderedA false false).events ++
          (if IsCancelled (renderedA false false) ||
              PaintEvent.isCancelled { m_isCancelled := false } then []
           else [Event.addTile keyA]) :=
  ⟨by decide,
   slot_after_commit_step (renderedA false false)
     { m_rectInfo := keyA, m_paintEvent := some { m_isCancelled := false }, m_sequenceID := 1 }
     { m_isCancelled := false } (by decide) (by decide) (by decide)⟩

/-- Registering handles appends them to the list, in order, and emits nothing. -/
theorem foldl_AddWindowHandle (ws : List WindowHandle) (s : State) :
    (ws.foldl AddWindowHandle s).m_windowHandles = s.m_windowHandles ++ ws ∧
    (ws.foldl AddWindowHandle s).events = s.events := by
  induction ws generalizing s with
  | nil => simp
  | cons w ws ih =>
    obtain ⟨h1, h2⟩ := ih (AddWindowHandle s w)
    rw [List.foldl_cons, h1, h2]
    simp [AddWindowHandle]

/-- C6: when the commit step adds a tile (the worker is at line 180 with the
token clear), the next statements after `AddTile` are the reset of the slot
and `Invalidate`, and the iteration ends at the loop condition with the events
`addTile` followed by one `invalidate` per registered handle. `Invalidate`
after registering the handles `ws` with `AddWindowHandle` calls `invalidate`
on the handles in registration order, once per registration (so the number of
calls on a handle is the number of times it was registered), and with no
handle registered it does nothing. -/
theorem commit_then_invalidate (s : State) (c : Command) (e : PaintEvent)
    (ws : List WindowHandle) (hpc : s.pc = .commit) (hcur : s.m_currentCommand = some c)
    (htok : c.m_paintEvent = some e) (hclear : e.isCancelled = false) :
    runWorker 3 s
      = some { s with
          pc := .loopCond, m_currentCommand := none,
          tileCache := s.tileCache.addTile c.m_rectInfo
            { m_renderTarget := s.tileTarget, m_rectInfo := c.m_rectInfo },
          events := s.events ++ [Event.addTile c.m_rectInfo]
            ++ s.m_windowHandles.map Event.invalidate } ∧
    (Invalidate (ws.foldl AddWindowHandle { s with m_windowHandles := [] })).events
      = s.events ++ ws.map Event.invalidate ∧
    (∀ w, ((Invalidate (ws.foldl AddWindowHandle { s with m_windowHandles := [] })).events.drop
        s.events.length).count (Event.invalidate w) = ws.count w) ∧
    Invalidate { s with m_windowHandles := [] } = { s with m_windowHandles := [] } := by
  have hreg : (Invalidate (ws.foldl AddWindowHandle { s with m_windowHandles := [] })).events
      = s.events ++ ws.map Event.invalidate := by
    obtain ⟨h1, h2⟩ := foldl_AddWindowHandle ws { s with m_windowHandles := [] }
    simp [Invalidate, h1, h2]
  refine ⟨?_, hreg, ?_, ?_⟩
  · simp [runWorker, step, hpc, hcur, htok, hclear, AddTile, Invalidate]
  · intro w
    rw [hreg, List.drop_left]
    exact List.count_map_of_injective ws Event.invalidate
      (fun a b h => by injection h) w
  · simp [Invalidate]

/-- The state in which key A is about to be committed: the worker holds the
mutex at line 180 and the token is clear. -/
theorem commit_then_invalidate_witness :
    ({ renderedA false false with pc := .commit } : State).pc = .commit ∧
    PaintEvent.isCancelled { m_isCancelled := false } = false ∧
    (runWorker 3 { renderedA false false with pc := .commit }
      = some { renderedA false false with
          pc := .loopCond, m_currentCommand := none,
          tileCache := (renderedA false false).tileCache.addTile keyA
            { m_renderTarget := some 100, m_rectInfo := keyA },
          events := (renderedA false false).events ++ [Event.addTile keyA]
            ++ [Event.invalidate 7] } ∧
    (Invalidate ([3, 5, 3].foldl AddWindowHandle
        { renderedA false false with pc := .commit, m_windowHandles := [] })).events
      = (renderedA false false).events ++ [3, 5, 3].map Event.invalidate ∧
    (∀ w, ((Invalidate ([3, 5, 3].foldl AddWindowHandle
        { renderedA false false with pc := .commit, m_windowHandles := [] })).events.drop
        (renderedA false false).events.length).count (Event.invalidate w)
          = [3, 5, 3].count w) ∧
    Invalidate { renderedA false false with pc := .commit, m_windowHandles := [] }
      = { renderedA false false with pc := .commit, m_windowHandles := [] }) :=
  ⟨by decide, by decide,
   commit_then_invalidate { renderedA false false with pc := .commit }
     { m_rectInfo := keyA, m_paintEvent := some { m_isCancelled := false }, m_sequenceID := 1 }
     { m_isCancelled := false } [3, 5, 3] (by decide) (by decide) (by decide) (by decide)⟩

/-- From the statement after the loop the worker only calls
`endThreadDrawing` and returns. -/
theorem runWorker_endDrawing (s : State) (hpc : s.pc = .endDrawing) (n : Nat) :
    runWorker n s = some s ∨
    runWorker n s
      = some { s with pc := .returned, events := s.events ++ [Event.endThreadDrawing] } := by
  cases n with
  | zero => exact Or.inl rfl
  | succ k =>
    right
    simp only [runWorker, step, hpc, Option.some_bind]
    exact runWorker_returned k _ rfl

/-- C7: when the worker finds the command queue cancelled at line 119, right
after its pop, or the pool of render targets cancelled at line 141, right
after its acquire, the next statement is the one after the loop, and two
statements later `Do` has returned having only called `endThreadDrawing`. At
every later time the events are the ones before plus at most
`endThreadDrawing` (no drawing callback, no `AddTile`, no `invalidate`, no
further pop or acquire), and the tile cache, the command queue and the pool
are untouched. -/
theorem cancelled_queue_or_pool_stops (s : State)
    (h : (s.pc = .queueCancelled ∧ s.renderCommands.m_isCancelled = true) ∨
         (s.pc = .poolCancelled ∧ s.renderTargets.m_isCancelled = true)) :
    step s = some { s with pc := .endDrawing } ∧
    runWorker 2 s
      = some { s with pc := .returned, events := s.events ++ [Event.endThreadDrawing] } ∧
    ∀ n, ∃ s1, runWorker n s = some s1 ∧
      (s1.events = s.events ∨ s1.events = s.events ++ [Event.endThreadDrawing]) ∧
      s1.tileCache = s.tileCache ∧ s1.renderCommands = s.renderCommands ∧
      s1.renderTargets = s.renderTargets := by
  have h1 : step s = some { s with pc := .endDrawing } := by
    rcases h with ⟨hpc, hc⟩ | ⟨hpc, hc⟩ <;> simp [step, hpc, hc]
  refine ⟨h1, ?_, ?_⟩
  · simp only [runWorker, h1, Option.some_bind]
    simp [step]
  · intro n
    cases n with
    | zero => exact ⟨s, rfl, Or.inl rfl, rfl, rfl, rfl⟩
    | succ k =>
      simp only [runWorker, h1, Option.some_bind]
      rcases runWorker_endDrawing { s with pc := .endDrawing } rfl k with hk | hk
      · exact ⟨_, hk, Or.inl rfl, rfl, rfl, rfl⟩
      · exact ⟨_, hk, Or.inr rfl, rfl, rfl, rfl⟩

/-- Instance of C7: the command queue found cancelled while key A is still
queued. -/
theorem cancelled_queue_or_pool_stops_witness :
    ((queueCancelledA.pc = .queueCancelled ∧
        queueCancelledA.renderCommands.m_isCancelled = true) ∨
      (queueCancelledA.pc = .poolCancelled ∧
        queueCancelledA.renderTargets.m_isCancelled = true)) ∧
    (step queueCancelledA = some { queueCancelledA with pc := .endDrawing } ∧
    runWorker 2 queueCancelledA
      = some { queueCancelledA with
                 pc := .returned,
                 events := queueCancelledA.events ++ [Event.endThreadDrawing] } ∧
    ∀ n, ∃ s1, runWorker n queueCancelledA = some s1 ∧
      (s1.events = queueCancelledA.events ∨
        s1.events = queueCancelledA.events ++ [Event.endThreadDrawing]) ∧
      s1.tileCache = queueCancelledA.tileCache ∧
      s1.renderCommands = queueCancelledA.renderCommands ∧
      s1.renderTargets = queueCancelledA.renderTargets) :=
  ⟨by decide, cancelled_queue_or_pool_stops queueCancelledA (Or.inl ⟨by decide, by decide⟩)⟩

/-- C8: `Cancel` on a routine whose current command `c` has its token `e`
attached sets the routine flag and the token and changes nothing else; on a
routine with an empty slot it sets the routine flag and changes nothing
else. -/
theorem cancel_propagates_to_current_command (s s0 : State) (c : Command) (e : PaintEvent)
    (hcur : s.m_currentCommand = some c) (htok : c.m_paintEvent = some e)
    (hnone : s0.m_currentCommand = none) :
    Cancel s
      = some { s with
          m_isCancelled := true,
          m_currentCommand := some { c with m_paintEvent := some { m_isCancelled := true } } } ∧
    (∀ s1 c1 e1, Cancel s = some s1 → s1.m_currentCommand = some c1 →
      c1.m_paintEvent = some e1 → IsCancelled s1 = true ∧ e1.isCancelled = true) ∧
    Cancel s0 = some { s0 with m_isCancelled := true } := by
  have h1 : Cancel s
      = some { s with
          m_isCancelled := true,
          m_currentCommand := some { c with m_paintEvent := some { m_isCancelled := true } } } := by
    simp [Cancel, IRoutine.Cancel, hcur, htok, PaintEvent.setIsCancelled]
  refine ⟨h1, ?_, ?_⟩
  · intro s1 c1 e1 hs1 hc1 he1
    rw [h1] at hs1
    cases hs1
    simp only [Option.some.injEq] at hc1
    subst hc1
    simp only [Option.some.injEq] at he1
    subst he1
    exact ⟨rfl, rfl⟩
  · simp [Cancel, IRoutine.Cancel, hnone]

/-- Instance of C8: `Cancel` while key A is mid-render, and `Cancel` on the
idle routine. -/
theorem cancel_propagates_to_current_command_witness :
    idle.m_currentCommand = none ∧
    (Cancel midRenderA
      = some { midRenderA with
          m_isCancelled := true,
          m_currentCommand :=
            some { m_rectInfo := keyA, m_paintEvent := some { m_isCancelled := true },
                   m_sequenceID := 1 } } ∧
    (∀ s1 c1 e1, Cancel midRenderA = some s1 → s1.m_currentCommand = some c1 →
      c1.m_paintEvent = some e1 → IsCancelled s1 = true ∧ e1.isCancelled = true) ∧
    Cancel idle = some { idle with m_isCancelled := true }) :=
  ⟨by decide,
   cancel_propagates_to_current_command midRenderA idle
     { m_rectInfo := keyA, m_paintEvent := some { m_isCancelled := false }, m_sequenceID := 1 }
     { m_isCancelled := false } (by decide) (by decide) (by decide)⟩

/-- C9: for a tile texture of width `512` and height `256`, line 108 builds
the rectangle with corners `(1, 1)` and `(511, 511)`: the lower edge is taken
from the width, where a border of one pixel asks for `(511, 255)`. The two
rectangles agree whenever width and height are equal. -/
theorem renderRect_uses_width_for_height :
    renderRect 512 256 = { minX := 1, minY := 1, maxX := 511, maxY := 511 } ∧
    renderRectSpec 512 256 = { minX := 1, minY := 1, maxX := 511, maxY := 255 } ∧
    renderRect 512 256 ≠ renderRectSpec 512 256 ∧
    ∀ w, renderRect w w = renderRectSpec w w := by
  refine ⟨by decide, by decide, by decide, ?_⟩
  intro w
  rfl

/-- C10: key A is submitted with sequence-id `1` and the sequence is bumped to
`2`. The worker pops the command and discards it as stale; back at the loop
condition it does not hold the mutex, the slot still holds the command, whose
paint event was never attached, and `Cancel` dereferences the null pointer.
The same happens when the command is discarded because its tile is cached. -/
theorem cancel_after_discard_meets_null_token :
    runWorker 5 (bumpSequence submittedA) = some (discardedA 2 idle.tileCache) ∧
    runWorker 6 { submittedA with tileCache := cacheWithA } = some (discardedA 1 cacheWithA) ∧
    holdsMutex (discardedA 2 idle.tileCache) = false ∧
    holdsMutex (discardedA 1 cacheWithA) = false ∧
    (discardedA 2 idle.tileCache).m_currentCommand = some (Command.mk0 keyA 1) ∧
    (discardedA 1 cacheWithA).m_currentCommand = some (Command.mk0 keyA 1) ∧
    (Command.mk0 keyA 1).m_paintEvent = none ∧
    Cancel (discardedA 2 idle.tileCache) = none ∧
    Cancel (discardedA 1 cacheWithA) = none := by
  decide

end RenderQueueRoutine

namespace check_model

/-- The range kept by `std::unique` is never longer than the input. -/
theorem uniqueAux_length_le (prev : Nat) (l : List Nat) :
    (uniqueAux prev l).length ≤ l.length := by
  induction l generalizing prev with
  | nil => simp [uniqueAux]
  | cons y rest ih =>
    simp only [uniqueAux]
    split
    · exact Nat.le_succ_of_le (ih prev)
    · simpa using ih y

/-- On an ascending list, `std::unique` keeps everything exactly when no value
occurs twice. -/
theorem uniqueAux_length_eq_iff (prev : Nat) (l : List Nat)
    (h : (prev :: l).Sorted (fun a b => a ≤ b)) :
    (uniqueAux prev l).length = l.length ↔ (prev :: l).Nodup := by
  induction l generalizing prev with
  | nil => simp [uniqueAux]
  | cons y rest ih =>
    have hs : (y :: rest).Sorted (fun a b => a ≤ b) := List.Sorted.of_cons h
    have hle : ∀ b ∈ y :: rest, prev ≤ b := List.rel_of_sorted_cons h
    have hyle : ∀ b ∈ rest, y ≤ b := List.rel_of_sorted_cons hs
    simp only [uniqueAux]
    by_cases hpy : prev = y
    · subst hpy
      simp only [if_true]
      constructor
      · intro hlen
        have := uniqueAux_length_le prev rest
        simp only [List.length_cons] at hlen
        omega
      · intro hnd
        simp at hnd
    · simp only [if_neg hpy, List.length_cons, Nat.add_right_cancel_iff]
      rw [ih y hs, List.nodup_cons (a := prev)]
      constructor
      · intro hnd
        refine ⟨?_, hnd⟩
        intro hmem
        rcases List.mem_cons.mp hmem with heq | hin
        · exact hpy heq
        · have h1 : prev ≤ y := hle y (List.mem_cons_self _ _)
          have h2 : y ≤ prev := hyle prev hin
          exact hpy (Nat.le_antisymm h1 h2)
      · intro hnd
        exact hnd.2

/-- The duplicate check of lines 37 and 38 passes exactly when the vector has
no value twice. -/
theorem duplicateCheck_iff (vTypes : List Nat) :
    duplicateCheck vTypes = true ↔ vTypes.Nodup := by
  have hperm : (sort vTypes).Perm vTypes := List.perm_insertionSort _ vTypes
  have hsorted : (sort vTypes).Sorted (fun a b => a ≤ b) :=
    List.sorted_insertionSort (fun a b => a ≤ b) vTypes
  rw [← hperm.nodup_iff]
  simp only [duplicateCheck, beq_iff_eq]
  cases hs : sort vTypes with
  | nil => simp [unique]
  | cons x rest =>
    rw [hs] at hsorted
    simp only [unique, List.length_cons, Nat.add_right_cancel_iff]
    exact uniqueAux_length_eq_iff x rest hsorted

/-- The loop of lines 31 to 35 completes exactly when every type passes the
check of line 33, and then it has pushed the types in order. -/
theorem collectTypes_ok_iff (c : Classificator) (ts vTypes out : List Nat) :
    collectTypes c ts vTypes = .ok out ↔
      (∀ t ∈ ts, c.GetTypeForIndex (c.GetIndexForType t) = t) ∧ out = vTypes ++ ts := by
  induction ts generalizing vTypes with
  | nil => simp [collectTypes, eq_comm]
  | cons t ts ih =>
    simp only [collectTypes]
    by_cases ht : c.GetTypeForIndex (c.GetIndexForType t) = t
    · simp [ht, ih]
    · simp [ht]

/-- The loop of lines 31 to 35 always ends: either with the vector or with the
failed check. -/
theorem collectTypes_total (c : Classificator) (ts vTypes : List Nat) :
    (∃ out, collectTypes c ts vTypes = .ok out) ∨
    (∃ t, collectTypes c ts vTypes = .error (.typeRoundTrip t)) := by
  induction ts generalizing vTypes with
  | nil => exact Or.inl ⟨vTypes, rfl⟩
  | cons t ts ih =>
    simp only [collectTypes]
    by_cases ht : c.GetTypeForIndex (c.GetIndexForType t) = t
    · simpa [ht] using ih (vTypes ++ [t])
    · exact Or.inr ⟨t, by simp [ht]⟩

/-- The run over the file passes exactly when every feature passes its visit. -/
theorem ReadFeatures_ok_iff (c : Classificator) (fts : List FeatureType) :
    ReadFeatures c fts = .ok () ↔ ∀ ft ∈ fts, visitFeature c ft = .ok () := by
  induction fts with
  | nil => simp [ReadFeatures]
  | cons ft fts ih =>
    simp only [ReadFeatures, List.forall_mem_cons]
    cases hv : visitFeature c ft with
    | error e => simp
    | ok u => simpa using ih

/-- The checks of `ReadFeatures` on sample features: one that passes, and one
stopped by each `CHECK` in turn. -/
theorem visitFeature_samples :
    visitFeature sampleClassif ⟨[6, 2, 4], true, .GEOM_LINE, 2⟩ = .ok () ∧
    visitFeature sampleClassif ⟨[6, 5], true, .GEOM_LINE, 2⟩ = .error (.typeRoundTrip 5) ∧
    visitFeature sampleClassif ⟨[6, 2, 6], true, .GEOM_LINE, 2⟩ = .error .duplicateType ∧
    visitFeature sampleClassif ⟨[6, 2], false, .GEOM_LINE, 2⟩ = .error .invalidLimitRect ∧
    visitFeature sampleClassif ⟨[6, 2], true, .GEOM_LINE, 1⟩ = .error .linePointsCount ∧
    visitFeature sampleClassif ⟨[], true, .GEOM_POINT, 0⟩ = .ok () :=
  ⟨rfl, rfl, rfl, rfl, rfl, rfl⟩

/-- C11: for a feature visited by `ReadFeatures`, the vector the duplicate
check receives is the list of the feature's types, and the check (sort, then
`unique(...) == end`) passes exactly when that list has no value twice; the
visit passes every `CHECK` exactly when every type `t` satisfies
`GetTypeForIndex(GetIndexForType(t)) = t`, the types are pairwise distinct,
the limit rectangle is valid, and a line feature has more than one point. The
whole run passes exactly when every feature does. -/
theorem feature_accepted_iff (c : Classificator) (ft : FeatureType)
    (fts : List FeatureType) :
    (∀ vTypes, collectTypes c ft.types [] = .ok vTypes ↔
      (∀ t ∈ ft.types, c.GetTypeForIndex (c.GetIndexForType t) = t) ∧ vTypes = ft.types) ∧
    (duplicateCheck ft.types = true ↔ ft.types.Nodup) ∧
    (visitFeature c ft = .ok () ↔
      (∀ t ∈ ft.types, c.GetTypeForIndex (c.GetIndexForType t) = t) ∧
      ft.types.Pairwise (fun a b => a ≠ b) ∧
      ft.limitRectIsValid = true ∧
      (ft.geomType = .GEOM_LINE → 1 < ft.pointsCount)) ∧
    (ReadFeatures c fts = .ok () ↔ ∀ f ∈ fts, visitFeature c f = .ok ()) := by
  refine ⟨?_, duplicateCheck_iff ft.types, ?_, ReadFeatures_ok_iff c fts⟩
  · intro vTypes
    simpa using collectTypes_ok_iff c ft.types [] vTypes
  · by_cases hrt : ∀ t ∈ ft.types, c.GetTypeForIndex (c.GetIndexForType t) = t
    · have hcol : collectTypes c ft.types [] = .ok ft.types :=
        (collectTypes_ok_iff c ft.types [] ft.types).mpr ⟨hrt, by simp⟩
      have hdup := duplicateCheck_iff ft.types
      have hnd : ft.types.Pairwise (fun a b => a ≠ b) ↔ ft.types.Nodup := Iff.rfl
      simp only [visitFeature, hcol]
      by_cases hd : duplicateCheck ft.types = true
      · have hn : ft.types.Nodup := hdup.mp hd
        by_cases hv : ft.limitRectIsValid = true
        · by_cases hl : ft.geomType = .GEOM_LINE
          · by_cases hp : ft.pointsCount > 1
            · simpa [hd, hv, hl, hp, hnd, hn] using hrt
            · simp [hd, hv, hl, hp, hrt, hnd, hn]
          · simpa [hd, hv, hl, hnd, hn] using hrt
        · simp [hd, hv]
      · have hn : ¬ ft.types.Nodup := fun h => hd (hdup.mpr h)
        simp [hd, hnd, hn]
    · rcases collectTypes_total c ft.types [] with ⟨out, ho⟩ | ⟨t, he⟩
      · exact absurd ((collectTypes_ok_iff c ft.types [] out).mp ho).1 hrt
      · simp [visitFeature, he, hrt]

end check_model
